import Mathlib

/-!
# Workflow-binding engine of the launch blueprint

A shallow embedding of `mapParametersToAction` and the action walk of
`synth` from `packages/blueprints/launch-blueprint/src/blueprint.ts`.

JavaScript strings are modelled as Lean `String` (a list of characters);
`String.split(sep)` with a one-character separator is `List.splitOn` on
the character list.  JavaScript values reaching the engine are, per the
data model, scalars (string / number / boolean) or environment-definition
objects; `undefined` shows up only through failed lookups and failed
optional chaining, which we model with `Option`.
-/

set_option linter.unusedVariables false

namespace LaunchBlueprint

/-- A JS scalar option value: string, number or boolean. -/
inductive Scalar where
  | str (s : String)
  | num (n : Int)
  | bool (b : Bool)
deriving DecidableEq

/-- `launchRole` of an account connection (`Role<['codecatalyst*']>`): we keep its name. -/
structure LaunchRole where
  name : String
deriving DecidableEq

/-- `awsAccountConnection` of an environment definition. -/
structure AccountConnection where
  name : String
  launchRole : Option LaunchRole
deriving DecidableEq

/-- `EnvironmentDefinition`: a name and an optional account connection. -/
structure EnvironmentDefinition where
  name : String
  awsAccountConnection : Option AccountConnection
deriving DecidableEq

/-- The `value` field of a launch option / legacy parameter: a scalar or an
environment definition. -/
inductive OptionValue where
  | scalar (v : Scalar)
  | env (e : EnvironmentDefinition)
deriving DecidableEq

/-- One entry of `options.launchOptions` or `options.parameters`
(`DynamicKVInput`): a key, an optional display type and a value. -/
structure DynamicKVInput where
  key : String
  displayType : Option String
  value : OptionValue
deriving DecidableEq

/-- The option state the engine reads (`this.state.options`): the declarative
launch options, the legacy URL parameters and the legacy URL environments.
An absent (`undefined`) list behaves exactly like an empty one under
`?.find`, so both are modelled as `[]`. -/
structure ResolvedOptions where
  launchOptions : List DynamicKVInput
  parameters : List DynamicKVInput
  environments : List EnvironmentDefinition
deriving DecidableEq

/-- JS stringification of a scalar (`.toString()` / template literal). -/
def Scalar.toJsString : Scalar → String
  | .str s => s
  | .num n => toString n
  | .bool b => if b then "true" else "false"

/-- JS truthiness of a scalar: `""`, `0` and `false` are falsy. -/
def Scalar.truthy : Scalar → Bool
  | .str s => s ≠ ""
  | .num n => n ≠ 0
  | .bool b => b

/-- JS stringification of an option value; a plain object prints as
`[object Object]`. -/
def OptionValue.toJsString : OptionValue → String
  | .scalar v => v.toJsString
  | .env _ => "[object Object]"

/-- JS truthiness of an option value; any object is truthy. -/
def OptionValue.truthy : OptionValue → Bool
  | .scalar v => v.truthy
  | .env _ => true

/-- The namespace token `OPTIONS_PREFIX = 'LAUNCH_OPTIONS_'` from the source. -/
def OPTIONS_NS : String := "LAUNCH_OPTIONS_"

/-- Variable resolution (blueprint.ts lines 188-190):
`launchOptions?.find(option => option.key == optionName)?.value ??
 parameters.find(parameter => OPTIONS_PREFIX + parameter.key == optionName)?.value`.
A found entry's value is a scalar or an object, never nullish, so `??`
falls through exactly when the first `find` fails. -/
def resolveVariable (opts : ResolvedOptions) (optionName : String) : Option OptionValue :=
  ((opts.launchOptions.find? fun o => o.key == optionName).map fun o => o.value).orElse
    fun _ => (opts.parameters.find? fun p => OPTIONS_NS ++ p.key == optionName).map
      fun p => p.value

/-- An `Inputs.Variables` entry: `Name` and `Value`. -/
structure InputVariable where
  Name : String
  Value : String
deriving DecidableEq

/-- Variable substitution (lines 186-194): overwrite `Value` with the
string form of the resolved value only when `if (specifiedValue)` holds,
i.e. when the resolved value is truthy. -/
def substituteVariable (opts : ResolvedOptions) (v : InputVariable) : InputVariable :=
  match resolveVariable opts v.Name with
  | some specifiedValue =>
      if specifiedValue.truthy then { v with Value := specifiedValue.toJsString } else v
  | none => v

/-- The loop over `action.Inputs?.Variables` (an absent list iterates zero
times, like `[]`). -/
def substituteVariables (opts : ResolvedOptions) (vs : List InputVariable) : List InputVariable :=
  vs.map (substituteVariable opts)

/-- A `Connections` entry of a workflow environment. -/
structure ConnectionDefinition where
  Name : String
  Role : String
deriving DecidableEq

/-- `action.Environment`: a name and a connections list. -/
structure WorkflowEnvironment where
  Name : String
  Connections : List ConnectionDefinition
deriving DecidableEq

/-- Optional chaining `option.value?.name`: an environment-definition value
has a `name`, a scalar does not. -/
def envValueName : OptionValue → Option String
  | .env e => some e.name
  | .scalar _ => none

/-- Environment lookup (lines 199-201):
`launchOptions?.find(option => option.displayType == 'environment' &&
option.value?.name == actionEnvironment.Name)?.value ??
environments?.find(env => env.name == actionEnvironment.Name)`.
The predicate of the first `find` forces the matched value to carry a
`name`, i.e. to be an environment definition; the scalar fallthrough in
the inner match is unreachable. -/
def lookupEnvironmentDefinition (opts : ResolvedOptions) (name : String) :
    Option EnvironmentDefinition :=
  ((opts.launchOptions.find? fun o =>
      o.displayType == some "environment" && envValueName o.value == some name).bind
    fun o => match o.value with
      | .env e => some e
      | .scalar _ => none).orElse
    fun _ => opts.environments.find? fun e => e.name == name

/-- Connection binding (lines 207-215): if the looked-up definition has a
connection with a truthy (non-empty) name, produce
`{ Name: connection.name, Role: connection.launchRole?.name ?? 'No role selected' }`;
otherwise produce nothing. -/
def resolveEnvironment (opts : ResolvedOptions) (name : String) : Option ConnectionDefinition :=
  match lookupEnvironmentDefinition opts name with
  | some launchEnvironment =>
      match launchEnvironment.awsAccountConnection with
      | some connection =>
          if connection.name ≠ "" then
            some { Name := connection.name,
                   Role := match connection.launchRole with
                           | some r => r.name
                           | none => "No role selected" }
          else none
      | none => none
  | none => none

/-- Environment step of `mapParametersToAction` (lines 197-216): guarded by
`if (actionEnvironment?.Name)`; when a binding is produced it replaces the
whole `Connections` list by the one-element list `[binding]`. -/
def bindEnvironment (opts : ResolvedOptions) (env : Option WorkflowEnvironment) :
    Option WorkflowEnvironment :=
  match env with
  | none => none
  | some actionEnvironment =>
      if actionEnvironment.Name ≠ "" then
        match resolveEnvironment opts actionEnvironment.Name with
        | some binding => some { actionEnvironment with Connections := [binding] }
        | none => some actionEnvironment
      else some actionEnvironment

/-- JS `s.split(sep)` for a one-character separator. -/
def jsSplit (sep : Char) (s : String) : List String :=
  (s.data.splitOn sep).map String.mk

/-- JS `s.startsWith(start)`. -/
def jsStartsWith (s start : String) : Bool :=
  start.data.isPrefixOf s.data

/-- JS `s.substring(0, s.length - 1)`: drop the last character. -/
def jsDropLast (s : String) : String :=
  String.mk s.data.dropLast

/-- The deploy-action identifier namespace `'aws/cfn-deploy@'`. -/
def DEPLOY_IDENT : String := "aws/cfn-deploy@"

/-- What the override resolution of lines 229-231 produces: the *value* of a
matching launch option, or — the documented quirk — the whole
`DynamicKVInput` *object* of a matching legacy parameter. -/
inductive OverrideResolution where
  | fromOption (v : OptionValue)
  | fromParameter (p : DynamicKVInput)
deriving DecidableEq

/-- Override resolution (lines 229-231):
`launchOptions?.find(option => option.key == parameter.key)?.value ??
 parameters?.find(option => OPTIONS_PREFIX + option.key == parameter.key)`.
Note the second branch returns the parameter object itself, not `.value`. -/
def resolveOverride (opts : ResolvedOptions) (key : String) : Option OverrideResolution :=
  ((opts.launchOptions.find? fun o => o.key == key).map
      fun o => OverrideResolution.fromOption o.value).orElse
    fun _ => (opts.parameters.find? fun p => OPTIONS_NS ++ p.key == key).map
      fun p => OverrideResolution.fromParameter p

/-- Template-literal stringification of `override ?? parameter.value`
(line 232): a resolved option value prints by its JS string form, a
resolved parameter object prints as `[object Object]`; with no resolution
the original tuple value is used, and an absent tuple value (`tuple[1]`
being `undefined`) prints as the literal string `undefined`. -/
def overrideOrOriginal : Option OverrideResolution → Option String → String
  | some (.fromOption v), _ => v.toJsString
  | some (.fromParameter _), _ => "[object Object]"
  | none, some original => original
  | none, none => "undefined"

/-- `tuple[0]` of `p.split('=')`; a JS split always yields at least one
element, so the default is unreachable. -/
def tupleKey (p : String) : String :=
  (jsSplit '=' p).headD ""

/-- `tuple[1]` of `p.split('=')`: `undefined` when the tuple has no `=`. -/
def tupleValue (p : String) : Option String :=
  (jsSplit '=' p).get? 1

/-- One iteration of the override loop (line 232) without the trailing
comma: `` `${parameter.key}=${override ?? parameter.value}` ``. -/
def rewriteTuple (opts : ResolvedOptions) (p : String) : String :=
  tupleKey p ++ "=" ++ overrideOrOriginal (resolveOverride opts (tupleKey p)) (tupleValue p)

/-- The accumulation loop (lines 227-233): start from `''` and append
`` `${parameter.key}=${override ?? parameter.value},` `` per tuple. -/
def rewriteLoop (opts : ResolvedOptions) (tuples : List String) : String :=
  tuples.foldl (fun acc p => acc ++ rewriteTuple opts p ++ ",") ""

/-- Override step of `mapParametersToAction` (lines 219-240), acting on the
identifier and configuration of an action: only deploy actions with a
truthy `parameter-overrides` entry are rewritten, and the rebuilt string
loses its trailing comma before being written back. -/
def applyOverrides (opts : ResolvedOptions) (identifier : Option String)
    (config : Option (List (String × String))) : Option (List (String × String)) :=
  if (identifier.map fun i => jsStartsWith i DEPLOY_IDENT).getD false then
    match config with
    | some cfg =>
        match (cfg.find? fun kv => kv.1 == "parameter-overrides").map fun kv => kv.2 with
        | some overrides =>
            if overrides ≠ "" then
              let newOverrides := rewriteLoop opts (jsSplit ',' overrides)
              if newOverrides ≠ "" then
                some (cfg.map fun kv =>
                  if kv.1 == "parameter-overrides" then (kv.1, jsDropLast newOverrides) else kv)
              else some cfg
            else some cfg
        | none => some cfg
    | none => none
  else config

/-- A workflow action: identifier, input variables, environment,
configuration map and child actions (in document order). -/
inductive ActionNode where
  | mk (Identifier : Option String)
       (Variables : List InputVariable)
       (Environment : Option WorkflowEnvironment)
       (Configuration : Option (List (String × String)))
       (Actions : List (String × ActionNode))

def ActionNode.Identifier : ActionNode → Option String
  | .mk i _ _ _ _ => i

def ActionNode.Variables : ActionNode → List InputVariable
  | .mk _ vs _ _ _ => vs

def ActionNode.Environment : ActionNode → Option WorkflowEnvironment
  | .mk _ _ e _ _ => e

def ActionNode.Configuration : ActionNode → Option (List (String × String))
  | .mk _ _ _ c _ => c

def ActionNode.Actions : ActionNode → List (String × ActionNode)
  | .mk _ _ _ _ as => as

/-- `mapParametersToAction` (lines 183-241): substitute variables, bind the
environment, rewrite parameter overrides; child actions are not touched. -/
def mapParametersToAction (opts : ResolvedOptions) : ActionNode → ActionNode
  | .mk identifier vs env cfg actions =>
      .mk identifier (substituteVariables opts vs) (bindEnvironment opts env)
        (applyOverrides opts identifier cfg) actions

/-- One iteration of the outer loop of `synth` (lines 166-171): apply
`mapParametersToAction` to the action and then to each of its child
actions.  The body of `mapParametersToAction` never touches the `Actions`
field, so the children iterated afterwards are those of the original
action. -/
def walkEntry (opts : ResolvedOptions) (entry : String × ActionNode) : String × ActionNode :=
  match mapParametersToAction opts entry.2 with
  | .mk i vs e c children =>
      (entry.1, .mk i vs e c (children.map fun child => (child.1, mapParametersToAction opts child.2)))

/-- The action walk of `synth` (lines 165-172) over the document's action
map in insertion order.  The loop is hardcoded to two levels (top-level
actions and their child actions); it does not recurse further. -/
def walkActions (opts : ResolvedOptions) (actions : List (String × ActionNode)) :
    List (String × ActionNode) :=
  actions.map (walkEntry opts)

/-- The full string rewrite performed on a truthy `parameter-overrides`
value: split on commas, rewrite each tuple, and drop the trailing comma
(lines 222-237). -/
def rewriteOverrides (opts : ResolvedOptions) (overrides : String) : String :=
  jsDropLast (rewriteLoop opts (jsSplit ',' overrides))

/-- The action stored under the first key of an action map, used to read
concrete walk results back out. -/
def headAction (actions : List (String × ActionNode)) : Option ActionNode :=
  actions[0]?.map fun entry => entry.2

/-! ## Concrete inputs used by witnesses and counterexamples -/

/-- An option state with nothing in it. -/
def emptyOptions : ResolvedOptions := ⟨[], [], []⟩

/-- A key living in both sources: the launch option `LAUNCH_OPTIONS_stage`
and the legacy parameter `stage`, whose namespaced key is also
`LAUNCH_OPTIONS_stage`. -/
def c1Options : ResolvedOptions :=
  ⟨[⟨"LAUNCH_OPTIONS_stage", none, .scalar (.str "prod")⟩],
   [⟨"stage", none, .scalar (.str "legacy")⟩], []⟩

/-- Only a legacy parameter, no launch options. -/
def legacyOnlyOptions : ResolvedOptions :=
  ⟨[], [⟨"bucket", none, .scalar (.str "my-bucket")⟩], []⟩

/-- An option state resolving the variable name `V` to the truthy scalar
`new`. -/
def c2Options : ResolvedOptions :=
  ⟨[⟨"V", none, .scalar (.str "new")⟩], [], []⟩

/-- Depth-three action nesting: a top-level action, one child, one
grandchild, each with the same substitutable variable. -/
def c2Grandchild : ActionNode := .mk none [⟨"V", "old"⟩] none none []

def c2Child : ActionNode := .mk none [⟨"V", "old"⟩] none none [("grandchild", c2Grandchild)]

def c2Top : ActionNode := .mk none [⟨"V", "old"⟩] none none [("child", c2Child)]

def c2Doc : List (String × ActionNode) := [("top", c2Top)]

/-- An action with one variable and an environment reference, both of which
resolve to nothing under `emptyOptions`. -/
def c5Action : ActionNode :=
  .mk none [⟨"X", "keep"⟩] (some ⟨"E", [⟨"oldConn", "oldRole"⟩]⟩) none []

/-- A legacy environment whose connection has a name but no launch role. -/
def roleLessEnvironment : EnvironmentDefinition := ⟨"prodEnv", some ⟨"MyConn", none⟩⟩

def c6Options : ResolvedOptions := ⟨[], [], [roleLessEnvironment]⟩

/-- An action pointing at `prodEnv` with a pre-existing connections list. -/
def c7Action : ActionNode :=
  .mk none [] (some ⟨"prodEnv", [⟨"oldConn", "oldRole"⟩]⟩) none []

/-- A non-deploy action carrying a `parameter-overrides` entry. -/
def c8Action : ActionNode :=
  .mk (some "aws/build@v1") [] none (some [("parameter-overrides", "stage=dev")]) []

/-- An option whose key matches `c8Action`'s override key. -/
def c8Options : ResolvedOptions := ⟨[⟨"stage", none, .scalar (.str "prod")⟩], [], []⟩

/-- An option resolving `flag` to the falsy empty string. -/
def c9Options : ResolvedOptions := ⟨[⟨"flag", none, .scalar (.str "")⟩], [], []⟩

def c9Action : ActionNode := .mk none [⟨"flag", "orig"⟩] none none []

/-! ## Helper lemmas -/

theorem data_append (s t : String) : (s ++ t).data = s.data ++ t.data := rfl

theorem mapParametersToAction_Identifier (opts : ResolvedOptions) (a : ActionNode) :
    (mapParametersToAction opts a).Identifier = a.Identifier := by cases a; rfl

theorem mapParametersToAction_Variables (opts : ResolvedOptions) (a : ActionNode) :
    (mapParametersToAction opts a).Variables = substituteVariables opts a.Variables := by
  cases a; rfl

theorem mapParametersToAction_Environment (opts : ResolvedOptions) (a : ActionNode) :
    (mapParametersToAction opts a).Environment = bindEnvironment opts a.Environment := by
  cases a; rfl

theorem mapParametersToAction_Configuration (opts : ResolvedOptions) (a : ActionNode) :
    (mapParametersToAction opts a).Configuration = applyOverrides opts a.Identifier a.Configuration := by
  cases a; rfl

theorem mapParametersToAction_Actions (opts : ResolvedOptions) (a : ActionNode) :
    (mapParametersToAction opts a).Actions = a.Actions := by cases a; rfl

theorem comma_data : ",".data = [','] := rfl

theorem jsSplit_no_sep (sep : Char) (s : String) (h : sep ∉ s.data) : jsSplit sep s = [s] := by
  unfold jsSplit
  show ((s.data.splitOnP fun c => c == sep).map String.mk) = [s]
  rw [List.splitOnP_eq_single]
  · rfl
  · intro x hx hbeq
    exact h (eq_of_beq hbeq ▸ hx)

theorem rewriteLoop_acc (opts : ResolvedOptions) (ts : List String) (acc : String) :
    (ts.foldl (fun acc p => acc ++ rewriteTuple opts p ++ ",") acc).data =
      acc.data ++ (ts.map fun t => (rewriteTuple opts t).data ++ [',']).flatten := by
  induction ts generalizing acc with
  | nil => simp
  | cons t ts ih =>
    rw [List.foldl_cons, ih]
    simp only [List.map_cons, List.flatten_cons, data_append, comma_data]
    simp [List.append_assoc]

theorem rewriteLoop_data (opts : ResolvedOptions) (ts : List String) :
    (rewriteLoop opts ts).data =
      (ts.map fun t => (rewriteTuple opts t).data ++ [',']).flatten := by
  unfold rewriteLoop
  rw [rewriteLoop_acc]
  rfl

theorem flatten_concat_dropLast (sep : Char) (ts : List (List Char)) (hne : ts ≠ []) :
    ((ts.map fun t => t ++ [sep]).flatten).dropLast = [sep].intercalate ts := by
  induction ts with
  | nil => exact absurd rfl hne
  | cons t ts ih =>
    cases ts with
    | nil => simp [List.intercalate, List.dropLast_concat]
    | cons u us =>
      have htail : (((u :: us).map fun w => w ++ [sep]).flatten) ≠ [] := by
        simp
      have hstep : ((t :: u :: us).map fun w => w ++ [sep]).flatten =
          (t ++ [sep]) ++ ((u :: us).map fun w => w ++ [sep]).flatten := rfl
      rw [hstep, List.dropLast_append_of_ne_nil _ htail, ih (by simp)]
      simp [List.intercalate, List.intersperse_cons_cons, List.append_assoc]

theorem rewriteTuple_id (opts : ResolvedOptions) (t : String)
    (hlen : (jsSplit '=' t).length = 2)
    (hres : resolveOverride opts (tupleKey t) = none) :
    rewriteTuple opts t = t := by
  obtain ⟨k, v, hkv⟩ := List.length_eq_two.mp
    (show (t.data.splitOn '=').length = 2 by simpa [jsSplit] using hlen)
  have hjs : jsSplit '=' t = [String.mk k, String.mk v] := by
    unfold jsSplit
    rw [hkv]
    rfl
  have htk : tupleKey t = String.mk k := by
    unfold tupleKey
    rw [hjs]
    rfl
  have htv : tupleValue t = some (String.mk v) := by
    unfold tupleValue
    rw [hjs]
    rfl
  have htd : k ++ '=' :: v = t.data := by
    have hi := List.intercalate_splitOn t.data '='
    rw [hkv] at hi
    simpa [List.intercalate, List.intersperse] using hi
  rw [htk] at hres
  unfold rewriteTuple
  rw [htk, htv, hres]
  apply String.ext
  show (k ++ ['=']) ++ v = t.data
  rw [List.append_assoc]
  exact htd

/-! ## Claims -/

/-- C1: for every variable name that is the key of some launch-options entry
and also equals the namespaced key of some legacy parameter,
`resolveVariable` finds a launch-options entry and returns its value —
launch-options strictly wins, the legacy parameter is never consulted. -/
theorem c1_launch_options_take_precedence (opts : ResolvedOptions) (name : String)
    (h1 : ∃ o ∈ opts.launchOptions, o.key = name)
    (h2 : ∃ p ∈ opts.parameters, OPTIONS_NS ++ p.key = name) :
    (opts.launchOptions.find? fun o => o.key == name).isSome = true ∧
    resolveVariable opts name =
      (opts.launchOptions.find? fun o => o.key == name).map fun o => o.value := by
  obtain ⟨o₀, ho₀, hk₀⟩ := h1
  have hs : (opts.launchOptions.find? fun o => o.key == name).isSome = true := by
    rw [List.find?_isSome]
    exact ⟨o₀, ho₀, by simp [hk₀]⟩
  obtain ⟨o, ho⟩ := Option.isSome_iff_exists.mp hs
  refine ⟨hs, ?_⟩
  unfold resolveVariable
  rw [ho]
  rfl

/-- Witness for C1: the key `LAUNCH_OPTIONS_stage` is a launch-options key
and the namespaced key of the legacy parameter `stage`; resolution returns
the launch-options branch. -/
theorem c1_witness :
    (c1Options.launchOptions.find? fun o => o.key == "LAUNCH_OPTIONS_stage").isSome = true ∧
    resolveVariable c1Options "LAUNCH_OPTIONS_stage" =
      (c1Options.launchOptions.find? fun o => o.key == "LAUNCH_OPTIONS_stage").map
        fun o => o.value :=
  c1_launch_options_take_precedence c1Options "LAUNCH_OPTIONS_stage"
    ⟨⟨"LAUNCH_OPTIONS_stage", none, .scalar (.str "prod")⟩, by decide, by decide⟩
    ⟨⟨"stage", none, .scalar (.str "legacy")⟩, by decide, by decide⟩

/-- C4: in the override rewriter, a key matching no launch option but
matching a namespaced legacy parameter resolves to the parameter object
itself, which stringifies as `[object Object]` regardless of the tuple's
original value — unlike `resolveVariable`, which extracts the scalar
value of the same parameter. -/
theorem c4_legacy_override_is_parameter_object (opts : ResolvedOptions) (key : String)
    (p : DynamicKVInput) (orig : Option String)
    (h1 : opts.launchOptions.find? (fun o => o.key == key) = none)
    (h2 : opts.parameters.find? (fun q => OPTIONS_NS ++ q.key == key) = some p) :
    resolveOverride opts key = some (.fromParameter p) ∧
    overrideOrOriginal (resolveOverride opts key) orig = "[object Object]" ∧
    resolveVariable opts key = some p.value := by
  have hover : resolveOverride opts key = some (.fromParameter p) := by
    unfold resolveOverride
    rw [h1, h2]
    rfl
  refine ⟨hover, ?_, ?_⟩
  · rw [hover]
    cases orig <;> rfl
  · unfold resolveVariable
    rw [h1, h2]
    rfl

/-- Witness for C4: the legacy parameter `bucket` matched through
`LAUNCH_OPTIONS_bucket` with no launch option present. -/
theorem c4_witness :
    resolveOverride legacyOnlyOptions "LAUNCH_OPTIONS_bucket" =
      some (.fromParameter ⟨"bucket", none, .scalar (.str "my-bucket")⟩) ∧
    overrideOrOriginal (resolveOverride legacyOnlyOptions "LAUNCH_OPTIONS_bucket")
      (some "orig") = "[object Object]" ∧
    resolveVariable legacyOnlyOptions "LAUNCH_OPTIONS_bucket" =
      some (OptionValue.scalar (.str "my-bucket")) :=
  c4_legacy_override_is_parameter_object legacyOnlyOptions "LAUNCH_OPTIONS_bucket"
    ⟨"bucket", none, .scalar (.str "my-bucket")⟩ (some "orig") (by decide) (by decide)

/-- C5: absent resolution is a no-op, never a deletion — a variable whose
name resolves to nothing keeps its `Value`, and an action whose
environment name produces no connection binding keeps its whole
`Environment` block, `Connections` included. -/
theorem c5_absent_resolution_is_noop (opts : ResolvedOptions) (a : ActionNode) :
    (∀ (i : Nat) (v : InputVariable), a.Variables[i]? = some v →
        resolveVariable opts v.Name = none →
        (mapParametersToAction opts a).Variables[i]? = some v) ∧
    (∀ env : WorkflowEnvironment, a.Environment = some env →
        resolveEnvironment opts env.Name = none →
        (mapParametersToAction opts a).Environment = some env) := by
  constructor
  · intro i v hv hres
    rw [mapParametersToAction_Variables]
    unfold substituteVariables
    rw [List.getElem?_map, hv]
    simp [substituteVariable, hres]
  · intro env henv hres
    rw [mapParametersToAction_Environment, henv]
    unfold bindEnvironment
    by_cases hn : env.Name = ""
    · simp [hn]
    · simp [hn, hres]

/-- Witness for C5: under an empty option state, both the variable `X` and
the environment reference `E` of `c5Action` survive the map unchanged. -/
theorem c5_witness :
    (mapParametersToAction emptyOptions c5Action).Variables[0]? = some ⟨"X", "keep"⟩ ∧
    (mapParametersToAction emptyOptions c5Action).Environment =
      some ⟨"E", [⟨"oldConn", "oldRole"⟩]⟩ :=
  ⟨(c5_absent_resolution_is_noop emptyOptions c5Action).1 0 ⟨"X", "keep"⟩
      (by decide) (by decide),
   (c5_absent_resolution_is_noop emptyOptions c5Action).2 ⟨"E", [⟨"oldConn", "oldRole"⟩]⟩
      (by decide) (by decide)⟩

/-- C6: a matched environment definition carrying a named account connection
but no launch role produces a binding whose role is the literal string
`No role selected`. -/
theorem c6_missing_role_sentinel (opts : ResolvedOptions) (name : String)
    (env : EnvironmentDefinition) (conn : AccountConnection)
    (hdef : lookupEnvironmentDefinition opts name = some env)
    (hconn : env.awsAccountConnection = some conn)
    (hname : conn.name ≠ "")
    (hrole : conn.launchRole = none) :
    resolveEnvironment opts name = some ⟨conn.name, "No role selected"⟩ := by
  simp only [resolveEnvironment, hdef, hconn, hrole]
  simp [hname]

/-- Witness for C6: the legacy environment `prodEnv` with connection
`MyConn` and no role. -/
theorem c6_witness :
    resolveEnvironment c6Options "prodEnv" = some ⟨"MyConn", "No role selected"⟩ :=
  c6_missing_role_sentinel c6Options "prodEnv" roleLessEnvironment ⟨"MyConn", none⟩
    (by decide) (by decide) (by decide) (by decide)

/-- C7: whenever environment binding produces a binding, the action's
`Connections` list afterwards is exactly the one-element list holding that
binding; whatever connections were there before are discarded. -/
theorem c7_binding_replaces_connections (opts : ResolvedOptions) (a : ActionNode)
    (env : WorkflowEnvironment) (binding : ConnectionDefinition)
    (ha : a.Environment = some env) (hn : env.Name ≠ "")
    (hb : resolveEnvironment opts env.Name = some binding) :
    (mapParametersToAction opts a).Environment = some { env with Connections := [binding] } := by
  rw [mapParametersToAction_Environment, ha]
  unfold bindEnvironment
  simp [hn, hb]

/-- Witness for C7: binding `prodEnv` onto `c7Action` throws away its
pre-existing connection and leaves exactly the produced one. -/
theorem c7_witness :
    (mapParametersToAction c6Options c7Action).Environment =
      some ⟨"prodEnv", [⟨"MyConn", "No role selected"⟩]⟩ :=
  c7_binding_replaces_connections c6Options c7Action ⟨"prodEnv", [⟨"oldConn", "oldRole"⟩]⟩
    ⟨"MyConn", "No role selected"⟩ (by decide) (by decide) (by decide)

/-- C8: an action whose identifier does not start with `aws/cfn-deploy@`
keeps its `Configuration` untouched, whatever that configuration holds. -/
theorem c8_non_deploy_configuration_untouched (opts : ResolvedOptions) (a : ActionNode)
    (h : (a.Identifier.map fun i => jsStartsWith i DEPLOY_IDENT).getD false = false) :
    (mapParametersToAction opts a).Configuration = a.Configuration := by
  rw [mapParametersToAction_Configuration]
  simp [applyOverrides, h]

/-- Witness for C8: a build action with a `parameter-overrides` entry and a
matching launch option still keeps its configuration verbatim. -/
theorem c8_witness :
    (mapParametersToAction c8Options c8Action).Configuration = c8Action.Configuration :=
  c8_non_deploy_configuration_untouched c8Options c8Action (by decide)

/-- C9: a resolution that is present but falsy (empty string, zero or
false) does not overwrite the variable — truthiness, not mere presence,
gates the write. -/
theorem c9_falsy_resolution_is_noop (opts : ResolvedOptions) (a : ActionNode)
    (i : Nat) (v : InputVariable) (val : OptionValue)
    (hv : a.Variables[i]? = some v)
    (hres : resolveVariable opts v.Name = some val)
    (hfalsy : val.truthy = false) :
    (mapParametersToAction opts a).Variables[i]? = some v := by
  rw [mapParametersToAction_Variables]
  unfold substituteVariables
  rw [List.getElem?_map, hv]
  simp [substituteVariable, hres, hfalsy]

/-- Witness for C9: `flag` resolves to the empty string, so the original
value `orig` stays. -/
theorem c9_witness :
    (mapParametersToAction c9Options c9Action).Variables[0]? = some ⟨"flag", "orig"⟩ :=
  c9_falsy_resolution_is_noop c9Options c9Action 0 ⟨"flag", "orig"⟩
    (.scalar (.str "")) (by decide) (by decide) (by decide)

/-- C2 counterexample: in a three-level document the walk substitutes the
variable of the top-level action but leaves the grandchild's identical
variable untouched, even though substitution applied to it would change
it — the walker stops after two levels. -/
theorem c2_counterexample :
    (((headAction (walkActions c2Options c2Doc)).bind fun a => headAction a.Actions).bind
        fun c => headAction c.Actions).map (fun g => g.Variables) = some [⟨"V", "old"⟩] ∧
    (headAction (walkActions c2Options c2Doc)).map (fun a => a.Variables) =
      some [⟨"V", "new"⟩] ∧
    substituteVariable c2Options ⟨"V", "old"⟩ = ⟨"V", "new"⟩ := by
  decide

/-- C2 amended: the walker applies variable substitution, environment
binding and override rewriting to every top-level action and to each of
its immediate children, but no deeper — the `Actions` field of a child is
carried over unchanged, so grandchildren are never processed. -/
theorem c2_amended_two_level_walk (opts : ResolvedOptions)
    (actions : List (String × ActionNode)) (i j : Nat)
    (p q : String × ActionNode)
    (hi : actions[i]? = some p) (hj : p.2.Actions[j]? = some q) :
    (walkActions opts actions)[i]? = some (walkEntry opts p) ∧
    (walkEntry opts p).1 = p.1 ∧
    (walkEntry opts p).2.Variables = (mapParametersToAction opts p.2).Variables ∧
    (walkEntry opts p).2.Environment = (mapParametersToAction opts p.2).Environment ∧
    (walkEntry opts p).2.Configuration = (mapParametersToAction opts p.2).Configuration ∧
    (walkEntry opts p).2.Actions[j]? = some (q.1, mapParametersToAction opts q.2) ∧
    (mapParametersToAction opts q.2).Actions = q.2.Actions := by
  obtain ⟨pname, pa⟩ := p
  cases pa with
  | mk pid pvs penv pcfg pchildren =>
    refine ⟨?_, rfl, rfl, rfl, rfl, ?_, mapParametersToAction_Actions opts q.2⟩
    · unfold walkActions
      rw [List.getElem?_map, hi]
      rfl
    · show (pchildren.map fun child => (child.1, mapParametersToAction opts child.2))[j]? = _
      rw [List.getElem?_map]
      have hj' : pchildren[j]? = some q := hj
      rw [hj']
      rfl

/-- Witness for C2 amended: in the three-level document, the child action
of the top-level action is processed by the walk. -/
theorem c2_amended_witness :
    (walkEntry c2Options ("top", c2Top)).2.Actions[0]? =
      some ("child", mapParametersToAction c2Options c2Child) :=
  (c2_amended_two_level_walk c2Options c2Doc 0 0 ("top", c2Top) ("child", c2Child)
      rfl rfl).2.2.2.2.2.1

/-- C3 counterexample: the single-token override string `stage` has a key
matching no option and no parameter, yet the rewrite turns it into
`stage=undefined` — not the input string, and no trailing-comma
normalization is involved. -/
theorem c3_counterexample :
    rewriteOverrides emptyOptions "stage" = "stage=undefined" ∧
    rewriteOverrides emptyOptions "stage" ≠ "stage" ∧
    tupleKey "stage" = "stage" ∧
    resolveOverride emptyOptions "stage" = none := by
  decide

/-- C3 amended: for a deploy override string in which every comma-separated
tuple contains exactly one `=` (so its `=`-split has exactly a key and a
value) and every tuple key matches no launch option and no namespaced
legacy parameter, the rewrite returns the input string exactly. -/
theorem c3_amended_unmatched_rewrite_is_identity (opts : ResolvedOptions) (overrides : String)
    (h : ∀ t ∈ jsSplit ',' overrides,
        (jsSplit '=' t).length = 2 ∧ resolveOverride opts (tupleKey t) = none) :
    rewriteOverrides opts overrides = overrides := by
  apply String.ext
  show (rewriteLoop opts (jsSplit ',' overrides)).data.dropLast = overrides.data
  rw [rewriteLoop_data]
  have hmap : (jsSplit ',' overrides).map (fun t => (rewriteTuple opts t).data ++ [',']) =
      (overrides.data.splitOn ',').map fun k => k ++ [','] := by
    unfold jsSplit
    rw [List.map_map]
    refine List.map_congr_left fun k hk => ?_
    have ht := h (String.mk k) (by unfold jsSplit; exact List.mem_map_of_mem _ hk)
    show (rewriteTuple opts (String.mk k)).data ++ [','] = k ++ [',']
    rw [rewriteTuple_id opts (String.mk k) ht.1 ht.2]
  rw [hmap, flatten_concat_dropLast ',' _
      (show overrides.data.splitOn ',' ≠ [] from List.splitOnP_ne_nil _ _),
    List.intercalate_splitOn]

/-- Witness for C3 amended: the well-formed override string
`stage=dev,region=us-west-2` with an empty option state comes back
verbatim. -/
theorem c3_witness :
    rewriteOverrides emptyOptions "stage=dev,region=us-west-2" =
      "stage=dev,region=us-west-2" :=
  c3_amended_unmatched_rewrite_is_identity emptyOptions "stage=dev,region=us-west-2"
    (by decide)

/-- C10: a tuple with no `=` separator whose whole token matches no launch
option and no namespaced legacy parameter is rewritten to
`token=undefined` — `tuple[1]` is `undefined` and the template literal
prints it as the string `undefined` — and the rebuilt override string
contains exactly that emission for the token. -/
theorem c10_missing_separator_yields_undefined (opts : ResolvedOptions)
    (overrides tok : String)
    (hmem : tok ∈ jsSplit ',' overrides)
    (hsep : '=' ∉ tok.data)
    (hres : resolveOverride opts tok = none) :
    rewriteTuple opts tok = tok ++ "=undefined" ∧
    ∃ pre post : String,
      rewriteLoop opts (jsSplit ',' overrides) =
        pre ++ (tok ++ "=undefined" ++ ",") ++ post := by
  have hjs : jsSplit '=' tok = [tok] := jsSplit_no_sep '=' tok hsep
  have htk : tupleKey tok = tok := by
    unfold tupleKey
    rw [hjs]
    rfl
  have htv : tupleValue tok = none := by
    unfold tupleValue
    rw [hjs]
    rfl
  have h1 : rewriteTuple opts tok = tok ++ "=undefined" := by
    unfold rewriteTuple
    rw [htk, htv, hres]
    apply String.ext
    show (tok.data ++ ['=']) ++ "undefined".data = tok.data ++ "=undefined".data
    rw [List.append_assoc]
    rfl
  refine ⟨h1, ?_⟩
  obtain ⟨l1, l2, hsp⟩ := List.append_of_mem hmem
  refine ⟨String.mk (l1.map fun t => (rewriteTuple opts t).data ++ [',']).flatten,
          String.mk (l2.map fun t => (rewriteTuple opts t).data ++ [',']).flatten, ?_⟩
  apply String.ext
  rw [rewriteLoop_data, hsp, List.map_append, List.flatten_append, List.map_cons,
    List.flatten_cons, h1]
  show _ = ((l1.map fun t => (rewriteTuple opts t).data ++ [',']).flatten ++
      ((tok ++ "=undefined").data ++ [','])) ++
      (l2.map fun t => (rewriteTuple opts t).data ++ [',']).flatten
  simp [List.append_assoc]

/-- Witness for C10: the separator-less token `Foo` of the override string
`Foo,a=1` is rewritten to `Foo=undefined`. -/
theorem c10_witness :
    rewriteTuple emptyOptions "Foo" = "Foo" ++ "=undefined" :=
  (c10_missing_separator_yields_undefined emptyOptions "Foo,a=1" "Foo"
      (by decide) (by decide) (by decide)).1

end LaunchBlueprint
